import Mathlib

/-!
Shallow embedding of the Lyftr AI webhook service (FastAPI + SQLite backend)
for verification of its natural-language specification.

Source files embedded:
* `app/storage.py`  — `MessageStorage.insert_message`, `get_messages`, `get_stats`
* `app/main.py`     — `verify_signature`, the `/webhook` endpoint pipeline
* `app/models.py`   — `WebhookPayload` pydantic validation

Machine integers are modelled as `Nat` with explicit `% 2^32` where 32-bit
overflow matters (SHA-256); bytes are `Nat` values `< 256`.
-/

set_option maxRecDepth 4096

namespace Lyftr

/-! ## SHA-256 (as computed by Python's `hashlib.sha256`)

Words are `Nat` reduced modulo `2^32`; a message is a list of bytes. -/

def w32 : Nat := 4294967296

def rotr (n x : Nat) : Nat :=
  ((x >>> n) + ((x <<< (32 - n)) % w32)) % w32

def shr (n x : Nat) : Nat := x >>> n

def xor32 (a b : Nat) : Nat := a ^^^ b

def add32 (a b : Nat) : Nat := (a + b) % w32

def and32 (a b : Nat) : Nat := a &&& b

def not32 (a : Nat) : Nat := w32 - 1 - (a % w32)

def shaCh (x y z : Nat) : Nat := xor32 (and32 x y) (and32 (not32 x) z)

def shaMaj (x y z : Nat) : Nat := xor32 (and32 x y) (xor32 (and32 x z) (and32 y z))

def bigSigma0 (x : Nat) : Nat := xor32 (rotr 2 x) (xor32 (rotr 13 x) (rotr 22 x))

def bigSigma1 (x : Nat) : Nat := xor32 (rotr 6 x) (xor32 (rotr 11 x) (rotr 25 x))

def smallSigma0 (x : Nat) : Nat := xor32 (rotr 7 x) (xor32 (rotr 18 x) (shr 3 x))

def smallSigma1 (x : Nat) : Nat := xor32 (rotr 17 x) (xor32 (rotr 19 x) (shr 10 x))

def shaK : List Nat :=
  [1116352408, 1899447441, 3049323471, 3921009573, 961987163, 1508970993,
   2453635748, 2870763221, 3624381080, 310598401, 607225278, 1426881987,
   1925078388, 2162078206, 2614888103, 3248222580, 3835390401, 4022224774,
   264347078, 604807628, 770255983, 1249150122, 1555081692, 1996064986,
   2554220882, 2821834349, 2952996808, 3210313671, 3336571891, 3584528711,
   113926993, 338241895, 666307205, 773529912, 1294757372, 1396182291,
   1695183700, 1986661051, 2177026350, 2456956037, 2730485921, 2820302411,
   3259730800, 3345764771, 3516065817, 3600352804, 4094571909, 275423344,
   430227734, 506948616, 659060556, 883997877, 958139571, 1322822218,
   1537002063, 1747873779, 1955562222, 2024104815, 2227730452, 2361852424,
   2428436474, 2756734187, 3204031479, 3329325298]

def shaH0 : List Nat :=
  [1779033703, 3144134277, 1013904242, 2773480762,
   1359893119, 2600822924, 528734635, 1541459225]

/-- Big-endian bytes of a `Nat`, fixed width `k` bytes. -/
def natToBytesBE (k : Nat) (n : Nat) : List Nat :=
  match k with
  | 0 => []
  | k + 1 => natToBytesBE k (n / 256) ++ [n % 256]

/-- SHA-256 padding: append `0x80`, zero bytes, and the 8-byte big-endian bit length. -/
def shaPad (msg : List Nat) : List Nat :=
  let l := msg.length
  let zeros := (55 + 64 - (l % 64)) % 64
  msg ++ [0x80] ++ List.replicate zeros 0 ++ natToBytesBE 8 (l * 8)

/-- Group bytes into big-endian 32-bit words (length must be a multiple of 4). -/
def bytesToWords : List Nat → List Nat
  | b0 :: b1 :: b2 :: b3 :: rest =>
      (((b0 * 256 + b1) * 256 + b2) * 256 + b3) :: bytesToWords rest
  | _ => []

/-- Split a word list into 16-word blocks. -/
def toBlocks : List Nat → List (List Nat)
  | w0 :: w1 :: w2 :: w3 :: w4 :: w5 :: w6 :: w7 ::
    w8 :: w9 :: w10 :: w11 :: w12 :: w13 :: w14 :: w15 :: rest =>
      [w0, w1, w2, w3, w4, w5, w6, w7, w8, w9, w10, w11, w12, w13, w14, w15] :: toBlocks rest
  | _ => []

/-- Extend a 16-word block to the 64-word message schedule. -/
def extendSchedule (w : List Nat) : List Nat :=
  let rec go (acc : List Nat) (i : Nat) : List Nat :=
    match i with
    | 0 => acc
    | i + 1 =>
      let n := acc.length
      let w16 := acc.getD (n - 16) 0
      let w15 := acc.getD (n - 15) 0
      let w7 := acc.getD (n - 7) 0
      let w2 := acc.getD (n - 2) 0
      go (acc ++ [add32 (add32 (smallSigma1 w2) w7) (add32 (smallSigma0 w15) w16)]) i
  go w 48

/-- One round of the SHA-256 compression function. -/
def shaRound (st : List Nat) (kw : Nat × Nat) : List Nat :=
  match st with
  | [a, b, c, d, e, f, g, h] =>
    let t1 := add32 h (add32 (bigSigma1 e) (add32 (shaCh e f g) (add32 kw.1 kw.2)))
    let t2 := add32 (bigSigma0 a) (shaMaj a b c)
    [add32 t1 t2, a, b, c, add32 d t1, e, f, g]
  | st => st

/-- Process one 16-word block, updating the 8-word hash state. -/
def shaBlock (h : List Nat) (block : List Nat) : List Nat :=
  let ws := extendSchedule block
  let st := (shaK.zip ws).foldl shaRound h
  (h.zip st).map (fun p => add32 p.1 p.2)

/-- SHA-256 digest of a byte list, as 8 32-bit words. -/
def sha256Words (msg : List Nat) : List Nat :=
  (toBlocks (bytesToWords (shaPad msg))).foldl shaBlock shaH0

/-- SHA-256 digest as 32 bytes. -/
def sha256 (msg : List Nat) : List Nat :=
  (sha256Words msg).flatMap (natToBytesBE 4)

def hexChar (n : Nat) : Char :=
  if n < 10 then Char.ofNat (48 + n) else Char.ofNat (87 + n)

/-- Lower-case hex encoding of a byte list (Python's `.hexdigest()`). -/
def bytesToHex (bs : List Nat) : String :=
  String.mk (bs.flatMap (fun b => [hexChar (b / 16), hexChar (b % 16)]))

/-- HMAC-SHA256 (Python's `hmac.new(key, msg, hashlib.sha256)`), digest bytes. -/
def hmacSha256 (key msg : List Nat) : List Nat :=
  let k0 := if key.length > 64 then sha256 key else key
  let k := k0 ++ List.replicate (64 - k0.length) 0
  let ipad := k.map (fun b => xor32 b 0x36)
  let opad := k.map (fun b => xor32 b 0x5c)
  sha256 (opad ++ sha256 (ipad ++ msg))

/-- UTF-8 encoding of a string as a byte list (Python's `str.encode()`). -/
def utf8Bytes (s : String) : List Nat :=
  s.data.flatMap (fun c =>
    let n := c.toNat
    if n < 0x80 then [n]
    else if n < 0x800 then [0xc0 + n / 64, 0x80 + n % 64]
    else if n < 0x10000 then [0xe0 + n / 4096, 0x80 + (n / 64) % 64, 0x80 + n % 64]
    else [0xf0 + n / 262144, 0x80 + (n / 4096) % 64, 0x80 + (n / 64) % 64, 0x80 + n % 64])

/-- Models `hmac.new(secret.encode(), payload, hashlib.sha256).hexdigest()` from
`app/main.py` `verify_signature`. -/
def hmacSha256Hex (secret : String) (payload : List Nat) : String :=
  bytesToHex (hmacSha256 (utf8Bytes secret) payload)

/-! ## Storage layer (`app/storage.py`, class `MessageStorage`)

A row of the `messages` table.  `ts` and `created_at` are TEXT columns
holding `datetime.isoformat()` strings; SQLite compares TEXT with `memcmp`
on the UTF-8 encoding, which coincides with codepoint-lexicographic order
on Lean strings, so the SQL comparisons below use `String` order. -/

structure StoredMessage where
  message_id : String
  from_msisdn : String
  to_msisdn : String
  ts : String
  text : Option String
  created_at : String
deriving Repr, DecidableEq

abbrev Store := List StoredMessage

/-- Models `MessageStorage.insert_message`: `INSERT` with `message_id` as PRIMARY KEY;
a duplicate id raises `sqlite3.IntegrityError`, which is caught and reported
as `False` with the table unchanged.  `created_at` is the
`datetime.utcnow().isoformat()` string, passed here explicitly. -/
def insert_message (store : Store) (message_id from_msisdn to_msisdn ts : String)
    (text : Option String) (created_at : String) : Store × Bool :=
  if store.any (fun r => r.message_id == message_id) then
    (store, false)
  else
    (store ++ [⟨message_id, from_msisdn, to_msisdn, ts, text, created_at⟩], true)

/-- Python truthiness of an `Optional[str]` (`if from_msisdn:` in
`get_messages`): `None` and the empty string are falsy. -/
def strTruthy : Option String → Bool
  | none => false
  | some s => !(s == "")

/-- Strict lexicographic comparison of character lists by codepoint; this
is SQLite's `memcmp`-based BINARY collation on TEXT values (UTF-8 byte
order coincides with codepoint order). -/
def charsLt : List Char → List Char → Bool
  | [], [] => false
  | [], _ :: _ => true
  | _ :: _, [] => false
  | a :: as, b :: bs =>
    decide (a.toNat < b.toNat) || (a.toNat == b.toNat && charsLt as bs)

/-- SQLite `a < b` on TEXT. -/
def strLt (a b : String) : Bool := charsLt a.data b.data

/-- SQLite `a <= b` on TEXT (total order: not `b < a`). -/
def strLe (a b : String) : Bool := !charsLt b.data a.data

/-- SQLite's `upper` folding as used by its `LIKE` operator: only ASCII
letters are case-folded. -/
def sqliteUpper (c : Char) : Char :=
  if 'a' ≤ c ∧ c ≤ 'z' then Char.ofNat (c.toNat - 32) else c

/-- SQLite `LIKE` matching (`%` = any sequence, `_` = any single character,
ASCII-case-insensitive), on character lists.  The fuel argument only bounds
the recursion depth; `likeMatch` below supplies a provably sufficient amount,
so the `0`-fuel branch is unreachable. -/
def likeMatchAux : Nat → List Char → List Char → Bool
  | 0, _, _ => false
  | fuel + 1, pattern, text =>
    match pattern, text with
    | [], t => t.isEmpty
    | '%' :: ps, [] => likeMatchAux fuel ps []
    | '%' :: ps, c :: ts =>
        likeMatchAux fuel ps (c :: ts) || likeMatchAux fuel ('%' :: ps) ts
    | '_' :: ps, _ :: ts => likeMatchAux fuel ps ts
    | _ :: _, [] => false
    | p :: ps, c :: ts => (sqliteUpper p == sqliteUpper c) && likeMatchAux fuel ps ts

/-- SQLite `text LIKE pattern` (for non-NULL `text`). -/
def likeMatch (pattern text : String) : Bool :=
  likeMatchAux (pattern.data.length + text.data.length + 1) pattern.data text.data

/-- The WHERE clause of `MessageStorage.get_messages` applied to one row:
`from_msisdn = ?` when the `from` filter is truthy, `ts >= ?` when `since`
is given (SQLite TEXT comparison), and `text LIKE '%q%'` when the search
query is truthy.  A row with `text` NULL never satisfies the LIKE clause
(`NULL LIKE x` is NULL, excluded by WHERE). -/
def rowMatches (from_msisdn since search_query : Option String)
    (r : StoredMessage) : Bool :=
  (if strTruthy from_msisdn then r.from_msisdn == from_msisdn.getD "" else true) &&
  (if since.isSome then strLe (since.getD "") r.ts else true) &&
  (if strTruthy search_query then
      match r.text with
      | none => false
      | some t => likeMatch ("%" ++ search_query.getD "" ++ "%") t
    else true)

/-- The `ORDER BY ts ASC, message_id ASC` key as a (total, Boolean) relation on rows. -/
def msgOrder (a b : StoredMessage) : Bool :=
  strLt a.ts b.ts || (a.ts == b.ts && strLe a.message_id b.message_id)

/-- Strict version of `msgOrder`: `ts` strictly before, or equal `ts` and
`message_id` strictly before. -/
def msgStrict (a b : StoredMessage) : Bool :=
  strLt a.ts b.ts || (a.ts == b.ts && strLt a.message_id b.message_id)

/-- Models `MessageStorage.get_messages`: filter by the WHERE clause, report the
`COUNT(*)` over the same clause as `total`, order by
`ts ASC, message_id ASC`, and page with `LIMIT ? OFFSET ?`.  The endpoint
constrains `limit` to 1..100 and `offset` to 0.., so both are `Nat` here. -/
def get_messages (store : Store) (limit offset : Nat)
    (from_msisdn since search_query : Option String) :
    List StoredMessage × Nat :=
  let matching := store.filter (rowMatches from_msisdn since search_query)
  let total := matching.length
  let sorted := List.insertionSort (fun a b => msgOrder a b = true) matching
  ((sorted.drop offset).take limit, total)

/-- The `/stats` response computed by `MessageStorage.get_stats`. -/
structure Stats where
  total_messages : Nat
  senders_count : Nat
  messages_per_sender : List (String × Nat)
  first_message_ts : Option String
  last_message_ts : Option String
deriving Repr, DecidableEq

/-- The `ORDER BY count DESC, from_msisdn ASC` key on `(sender, count)` pairs. -/
def senderOrder (a b : String × Nat) : Bool :=
  decide (b.2 < a.2) || (b.2 == a.2 && strLe a.1 b.1)

/-- Strict version of `senderOrder`. -/
def senderStrict (a b : String × Nat) : Bool :=
  decide (b.2 < a.2) || (b.2 == a.2 && strLt a.1 b.1)

/-- The distinct `from_msisdn` values of the table (`GROUP BY from_msisdn`,
`COUNT(DISTINCT from_msisdn)`). -/
def distinctSenders (store : Store) : List String :=
  (store.map (fun r => r.from_msisdn)).dedup

/-- SQL `MIN` over a TEXT column (binary collation); `none` on an empty table. -/
def listMinStr : List String → Option String
  | [] => none
  | s :: rest =>
    match listMinStr rest with
    | none => some s
    | some m => some (if strLe s m then s else m)

/-- SQL `MAX` over a TEXT column (binary collation); `none` on an empty table. -/
def listMaxStr : List String → Option String
  | [] => none
  | s :: rest =>
    match listMaxStr rest with
    | none => some s
    | some m => some (if strLe m s then s else m)

/-- Models `if timestamps["first_ts"]:` — Python truthiness collapses both SQL NULL
and the empty string to `None`. -/
def pyTruthyOptStr : Option String → Option String
  | none => none
  | some s => if s == "" then none else some s

/-- Models `MessageStorage.get_stats`: `COUNT(*)`, `COUNT(DISTINCT from_msisdn)`,
the `GROUP BY from_msisdn` counts ordered by `count DESC, from_msisdn ASC`
limited to 10, and `MIN(ts)`/`MAX(ts)` passed through Python truthiness. -/
def get_stats (store : Store) : Stats :=
  { total_messages := store.length
    senders_count := (distinctSenders store).length
    messages_per_sender :=
      (List.insertionSort (fun a b => senderOrder a b = true)
        ((distinctSenders store).map
          (fun s => (s, store.countP (fun r => r.from_msisdn == s))))).take 10
    first_message_ts := pyTruthyOptStr (listMinStr (store.map (fun r => r.ts)))
    last_message_ts := pyTruthyOptStr (listMaxStr (store.map (fun r => r.ts))) }

/-! ## Payload validation (`app/models.py`, class `WebhookPayload`)

The candidate payload is the decoded JSON body: each field is the JSON
string for that key when present (`text` also covers JSON `null` as
`none`), and `extra` carries any unknown keys, which pydantic ignores. -/

instance exceptDecEq {e a : Type} [DecidableEq e] [DecidableEq a] :
    DecidableEq (Except e a) := fun x y =>
  match x, y with
  | .error u, .error v => decidable_of_iff (u = v) (by simp)
  | .ok u, .ok v => decidable_of_iff (u = v) (by simp)
  | .error _, .ok _ => isFalse (by simp)
  | .ok _, .error _ => isFalse (by simp)

structure RawPayload where
  message_id : Option String
  from_ : Option String
  to_ : Option String
  ts : Option String
  text : Option String
  extra : List (String × String)
deriving Repr, DecidableEq

/-- The ranges of codepoints matched by Python's `\d` (Unicode decimal
digits, category Nd), as matched by `re` on `str` patterns. -/
def pyDigitRanges : List (Nat × Nat) :=
  [(48, 57), (1632, 1641), (1776, 1785), (1984, 1993), (2406, 2415), (2534, 2543),
   (2662, 2671), (2790, 2799), (2918, 2927), (3046, 3055), (3174, 3183), (3302, 3311),
   (3430, 3439), (3558, 3567), (3664, 3673), (3792, 3801), (3872, 3881), (4160, 4169),
   (4240, 4249), (6112, 6121), (6160, 6169), (6470, 6479), (6608, 6617), (6784, 6793),
   (6800, 6809), (6992, 7001), (7088, 7097), (7232, 7241), (7248, 7257), (42528, 42537),
   (43216, 43225), (43264, 43273), (43472, 43481), (43504, 43513), (43600, 43609),
   (44016, 44025), (65296, 65305), (66720, 66729), (68912, 68921), (69734, 69743),
   (69872, 69881), (69942, 69951), (70096, 70105), (70384, 70393), (70736, 70745),
   (70864, 70873), (71248, 71257), (71360, 71369), (71472, 71481), (71904, 71913),
   (72016, 72025), (72784, 72793), (73040, 73049), (73120, 73129), (92768, 92777),
   (92864, 92873), (93008, 93017), (120782, 120831), (123200, 123209), (123632, 123641),
   (125264, 125273), (130032, 130041)]

/-- Python's `\d` character class on `str`. -/
def pyIsDigit (c : Char) : Bool :=
  pyDigitRanges.any (fun p => decide (p.1 ≤ c.toNat) && decide (c.toNat ≤ p.2))

/-- After `\+` and one matched digit, `\d*$` under Python semantics:
`$` (without `re.MULTILINE`) matches at the end of the string or just
before a single trailing newline. -/
def pyDigitsThenEnd : List Char → Bool
  | [] => true
  | ['\n'] => true
  | c :: rest => pyIsDigit c && pyDigitsThenEnd rest

/-- Models `re.match(r'^\+\d+$', v)` from `WebhookPayload.validate_e164`, with
Python's semantics: `\d` is any Unicode decimal digit and `$` also matches
just before one trailing newline. -/
def pyMatchE164 (v : String) : Bool :=
  match v.data with
  | '+' :: c :: rest => pyIsDigit c && pyDigitsThenEnd rest
  | _ => false

/-- The codepoints stripped by Python's `str.strip()` (Python's whitespace
set). -/
def pyIsSpace (c : Char) : Bool :=
  let n := c.toNat
  (9 ≤ n && n ≤ 13) || (28 ≤ n && n ≤ 32) || n == 0x85 || n == 0xa0 ||
  n == 0x1680 || (0x2000 ≤ n && n ≤ 0x200a) || n == 0x2028 || n == 0x2029 ||
  n == 0x202f || n == 0x205f || n == 0x3000

/-- Python's `str.strip()` with no arguments. -/
def pyStrip (s : String) : String :=
  String.mk (((s.data.dropWhile pyIsSpace).reverse.dropWhile pyIsSpace).reverse)

/-! ### `datetime` parsing and printing

Modelled from pydantic v2's string-to-`datetime` validation (ISO 8601:
`YYYY-MM-DD{T| }HH:MM[:SS[.ffffff]][Z|±HH:MM|±HHMM]`) and CPython's
`datetime.isoformat()`. -/

structure PyDatetime where
  year : Nat
  month : Nat
  day : Nat
  hour : Nat
  minute : Nat
  second : Nat
  microsecond : Nat
  utcOffsetMinutes : Option Int
deriving Repr, DecidableEq

def isLeapYear (y : Nat) : Bool :=
  y % 4 == 0 && (y % 100 != 0 || y % 400 == 0)

def daysInMonth (y m : Nat) : Nat :=
  if m == 2 then (if isLeapYear y then 29 else 28)
  else if m == 4 || m == 6 || m == 9 || m == 11 then 30
  else 31

def digitVal (c : Char) : Option Nat :=
  if '0' ≤ c ∧ c ≤ '9' then some (c.toNat - 48) else none

def parse2 : List Char → Option (Nat × List Char)
  | a :: b :: rest =>
    match digitVal a, digitVal b with
    | some x, some y => some (10 * x + y, rest)
    | _, _ => none
  | _ => none

def parse4 (cs : List Char) : Option (Nat × List Char) := do
  let (hi, cs) ← parse2 cs
  let (lo, cs) ← parse2 cs
  pure (100 * hi + lo, cs)

def expectChar (c : Char) : List Char → Option (List Char)
  | d :: rest => if d == c then some rest else none
  | [] => none

/-- Running digit scan: accumulated value, number of digits consumed, and
the remaining characters. -/
def grabDigits : List Char → Nat → Nat → Nat × Nat × List Char
  | [], acc, k => (acc, k, [])
  | c :: rest, acc, k =>
    match digitVal c with
    | some d => grabDigits rest (10 * acc + d) (k + 1)
    | none => (acc, k, c :: rest)

/-- Fractional seconds after `.` or `,`: one or more digits; pydantic
(speedate) truncates beyond microsecond precision, so only the first six
digits contribute. -/
def fracValue (cs : List Char) : Option (Nat × List Char) :=
  match grabDigits cs 0 0 with
  | (_, 0, _) => none
  | (v, k, rest) =>
    if k ≤ 6 then some (v * 10 ^ (6 - k), rest)
    else some (v / 10 ^ (k - 6), rest)

/-- UTC offset suffix: `Z`/`z`, `±HH:MM` or `±HHMM`; empty for naive. -/
def parseOffset : List Char → Option (Option Int × List Char)
  | [] => some (none, [])
  | 'Z' :: rest => some (some 0, rest)
  | 'z' :: rest => some (some 0, rest)
  | c :: rest =>
    if c == '+' || c == '-' then do
      let (h, rest) ← parse2 rest
      let rest := match rest with
        | ':' :: r => r
        | r => r
      let (m, rest) ← parse2 rest
      if h ≤ 23 && m ≤ 59 then
        let total : Int := Int.ofNat (60 * h + m)
        pure (some (if c == '-' then -total else total), rest)
      else none
    else none

/-- Proleptic-Gregorian civil date from days since the Unix epoch (the
standard era-based integer algorithm); callers guarantee the day number is
within years 1..9999, so the shifted day count is nonnegative. -/
def civilFromDays (z0 : Int) : Nat × Nat × Nat :=
  let z := (z0 + 719468).toNat
  let era := z / 146097
  let doe := z % 146097
  let yoe := (doe - doe / 1460 + doe / 36524 - doe / 146096) / 365
  let doy := doe - (365 * yoe + yoe / 4 - yoe / 100)
  let mp := (5 * doy + 2) / 153
  let d := doy - (153 * mp + 2) / 5 + 1
  let m := if mp < 10 then mp + 3 else mp - 9
  let y := yoe + era * 400 + (if m ≤ 2 then 1 else 0)
  (y, m, d)

/-- Unix-timestamp seconds of 0001-01-01T00:00:00 and of
9999-12-31T23:59:59: pydantic rejects timestamps outside this range. -/
def unixMinSeconds : Int := -62135596800

def unixMaxSeconds : Int := 253402300799

/-- Builds a `datetime` from a Unix timestamp the way pydantic (speedate)
does: magnitudes above `20_000_000_000` are interpreted as milliseconds,
microseconds carry into the seconds, the result must lie within years
1..9999, and the datetime is UTC-aware. -/
def pydFromTimestamp (ts : Int) (us : Nat) : Option PyDatetime :=
  let secExtra : Int × Nat :=
    if ts.natAbs ≤ 20000000000 then (ts, 0)
    else (Int.ediv ts 1000, (Int.emod ts 1000).toNat * 1000)
  let total := us + secExtra.2
  let sec := secExtra.1 + Int.ofNat (total / 1000000)
  let us2 := total % 1000000
  if sec < unixMinSeconds || sec > unixMaxSeconds then none
  else
    let days := Int.ediv sec 86400
    let sod := (Int.emod sec 86400).toNat
    let ymd := civilFromDays days
    some ⟨ymd.1, ymd.2.1, ymd.2.2, sod / 3600, (sod / 60) % 60, sod % 60,
      us2, some 0⟩

/-- Numeric fallback of pydantic datetime validation: an optionally signed
decimal, with an optional `.` fraction, read as a Unix timestamp.  The
integer form is bounded by `i64`; for the fractional form the exact
decimal value is pre-divided by 1000 above the millisecond watershed and
split into floor seconds and half-up-rounded microseconds.  (The real
implementation computes the fractional form through a binary double,
whose representation error can shift large values by microseconds; this
model uses the exact decimal value, which never changes acceptance.) -/
def parseNumericTimestamp (cs : List Char) : Option PyDatetime :=
  let signRest : Bool × List Char :=
    match cs with
    | '-' :: r => (true, r)
    | '+' :: r => (false, r)
    | r => (false, r)
  let neg := signRest.1
  match grabDigits signRest.2 0 0 with
  | (_, 0, _) => none
  | (ip, _, rest) =>
    match rest with
    | [] =>
      if ip > 9223372036854775807 then none
      else pydFromTimestamp (if neg then -(Int.ofNat ip) else Int.ofNat ip) 0
    | '.' :: fr =>
      match grabDigits fr 0 0 with
      | (fp, fk, rest2) =>
        if !rest2.isEmpty then none
        else
          let den := 10 ^ fk
          let num := ip * den + fp
          let denG := if num > 20000000000 * den then den * 1000 else den
          let q := num / denG
          let r := num % denG
          let sUs : Int × Nat :=
            if neg then
              if r == 0 then (-(Int.ofNat q), 0)
              else (-(Int.ofNat q) - 1,
                (2 * (denG - r) * 1000000 + denG) / (2 * denG))
            else (Int.ofNat q, (2 * r * 1000000 + denG) / (2 * denG))
          if sUs.1.natAbs > 9223372036854775807 then none
          else pydFromTimestamp sUs.1 sUs.2
    | _ => none

/-- ISO-8601 side of pydantic datetime validation: `YYYY-MM-DD`, and
either nothing more (a date, promoted to midnight, naive) or a
`{T|t| }HH:MM[:SS[{.|,}ffffff...]]` time with an optional UTC offset. -/
def parseIso (cs : List Char) : Option PyDatetime := do
  let (y, cs) ← parse4 cs
  let cs ← expectChar '-' cs
  let (mo, cs) ← parse2 cs
  let cs ← expectChar '-' cs
  let (d, cs) ← parse2 cs
  if !(1 ≤ mo && mo ≤ 12 && 1 ≤ d && d ≤ daysInMonth y mo &&
      1 ≤ y && y ≤ 9999) then none
  else match cs with
  | [] => pure ⟨y, mo, d, 0, 0, 0, 0, none⟩
  | c :: cs =>
    if !(c == 'T' || c == 't' || c == ' ') then none
    else do
      let (h, cs) ← parse2 cs
      let cs ← expectChar ':' cs
      let (mi, cs) ← parse2 cs
      let (sec, us, cs) ← match cs with
        | ':' :: r => do
          let (sec, r) ← parse2 r
          match r with
          | '.' :: r2 => do
            let (us, r3) ← fracValue r2
            pure ((sec : Nat), us, r3)
          | ',' :: r2 => do
            let (us, r3) ← fracValue r2
            pure ((sec : Nat), us, r3)
          | _ => pure ((sec : Nat), (0 : Nat), r)
        | r => pure ((0 : Nat), (0 : Nat), r)
      let (off, cs) ← parseOffset cs
      if cs.isEmpty && h ≤ 23 && mi ≤ 59 && sec ≤ 59 then
        pure ⟨y, mo, d, h, mi, sec, us, off⟩
      else none

/-- Parse a JSON string into a `datetime` the way pydantic v2
(pydantic-core/speedate) validates a `datetime` field: an ISO 8601
datetime, an ISO date (midnight), or a numeric Unix timestamp (seconds,
or milliseconds above the `2·10^10` watershed), bounded to years 1..9999.
The acceptance behaviour of this model was checked against pydantic
2.10.6 over several thousand boundary and fuzz inputs. -/
def parseDatetime (s : String) : Option PyDatetime :=
  match parseIso s.data with
  | some d => some d
  | none => parseNumericTimestamp s.data

/-- Fixed-width decimal print (`%0kd`) for `k ≤ 6`, as character list. -/
def padNat : Nat → Nat → List Char
  | 0, _ => []
  | k + 1, n => padNat k (n / 10) ++ [Char.ofNat (48 + n % 10)]

/-- CPython `datetime.isoformat()`: seconds always printed, microseconds
only when nonzero, offset as `±HH:MM` for aware datetimes. -/
def PyDatetime.isoformat (d : PyDatetime) : String :=
  String.mk
    (padNat 4 d.year ++ '-' :: padNat 2 d.month ++ '-' :: padNat 2 d.day ++
     'T' :: padNat 2 d.hour ++ ':' :: padNat 2 d.minute ++ ':' :: padNat 2 d.second ++
     (if d.microsecond == 0 then [] else '.' :: padNat 6 d.microsecond) ++
     (match d.utcOffsetMinutes with
      | none => []
      | some off =>
        (if off < 0 then '-' else '+') ::
          (padNat 2 (off.natAbs / 60) ++ ':' :: padNat 2 (off.natAbs % 60))))

/-- A validated `WebhookPayload`. -/
structure WebhookPayload where
  message_id : String
  from_ : String
  to_ : String
  ts : PyDatetime
  text : Option String
deriving Repr, DecidableEq

/-- The `message_id` field: required; pydantic's `min_length=1`, then
`validate_message_id` (reject empty/whitespace-only, return `v.strip()`). -/
def validateMessageIdField : Option String → Except (String × String) String
  | none => .error ("message_id", "Field required")
  | some v =>
    if v.length < 1 then
      .error ("message_id", "String should have at least 1 character")
    else if pyStrip v == "" then
      .error ("message_id", "message_id cannot be empty or whitespace only")
    else .ok (pyStrip v)

/-- The `from`/`to` fields: required; `validate_e164` (reject empty, then
`re.match(r'^\+\d+$', v)`). -/
def validateE164Field (field : String) : Option String → Except (String × String) String
  | none => .error (field, "Field required")
  | some v =>
    if v == "" then .error (field, "Phone number cannot be empty")
    else if pyMatchE164 v then .ok v
    else .error (field,
      "Phone number must be in E.164 format (start with + followed by digits)")

/-- The `ts` field: required; pydantic `datetime` parsing. -/
def validateTsField : Option String → Except (String × String) PyDatetime
  | none => .error ("ts", "Field required")
  | some v =>
    match parseDatetime v with
    | some d => .ok d
    | none => .error ("ts", "Input should be a valid datetime")

/-- The `text` field: optional; pydantic's `max_length=4096` counts characters
(codepoints), exactly `String.length`. -/
def validateTextField : Option String → Except (String × String) (Option String)
  | none => .ok none
  | some v =>
    if v.length ≤ 4096 then .ok (some v)
    else .error ("text", "String should have at most 4096 characters")

def collectErr {α : Type} : Except (String × String) α → List (String × String)
  | .error e => [e]
  | .ok _ => []

/-- pydantic validation of `WebhookPayload`: every field is validated and
all field errors are collected; unknown extra keys are ignored. -/
def validatePayload (p : RawPayload) : Except (List (String × String)) WebhookPayload :=
  match validateMessageIdField p.message_id, validateE164Field "from" p.from_,
        validateE164Field "to" p.to_, validateTsField p.ts,
        validateTextField p.text with
  | .ok m, .ok f, .ok t, .ok d, .ok x => .ok ⟨m, f, t, d, x⟩
  | r1, r2, r3, r4, r5 =>
    .error (collectErr r1 ++ collectErr r2 ++ collectErr r3 ++
            collectErr r4 ++ collectErr r5)

/-- Models `verify_signature` from `app/main.py`: fail closed on an empty
`WEBHOOK_SECRET`, else compare the `X-Signature` header with
`hmac.new(secret.encode(), payload, hashlib.sha256).hexdigest()`.
`hmac.compare_digest` is modelled by its value semantics (string
equality); the timing behaviour is not modelled. -/
def verify_signature (webhookSecret : String) (payload : List Nat)
    (signature : String) : Bool :=
  if webhookSecret == "" then false
  else signature == hmacSha256Hex webhookSecret payload

/-- An inbound POST /webhook request: the exact raw body bytes, the decoded
JSON body (`none` when the body is not a JSON object), and the
`X-Signature` header (`none` when absent). -/
structure WebhookRequest where
  rawBody : List Nat
  jsonPayload : Option RawPayload
  xSignature : Option String
deriving Repr, DecidableEq

/-- The POST /webhook request pipeline, returning (HTTP status, store).
FastAPI resolves the endpoint's declared parameters — the required
`X-Signature` header and the `WebhookPayload` body model — before the
handler body runs, answering 422 on any failure there; only then does
`webhook_endpoint` verify the signature (401 on mismatch) and call
`storage.insert_message` (200 with `{"status":"ok"}` for both created and
duplicate outcomes). -/
def webhook_post (secret : String) (store : Store) (req : WebhookRequest)
    (now : String) : Nat × Store :=
  match req.xSignature, req.jsonPayload with
  | none, _ => (422, store)
  | some _, none => (422, store)
  | some sig, some raw =>
    match validatePayload raw with
    | .error _ => (422, store)
    | .ok payload =>
      if !verify_signature secret req.rawBody sig then (401, store)
      else
        let inserted := insert_message store payload.message_id payload.from_
          payload.to_ payload.ts.isoformat payload.text now
        (200, inserted.1)

/-! ### Spec-side definitions for refinement comparison -/

theorem charsLt_irrefl : ∀ l, charsLt l l = false
  | [] => rfl
  | c :: cs => by
    simp [charsLt, charsLt_irrefl cs]

theorem charsLt_trans : ∀ a b c : List Char,
    charsLt a b = true → charsLt b c = true → charsLt a c = true
  | [], _ :: _, _ :: _, _, _ => rfl
  | [], b, [], _, h2 => by cases b <;> simp [charsLt] at h2
  | _ :: _, [], _, h1, _ => by simp [charsLt] at h1
  | _, _ :: _, [], _, h2 => by simp [charsLt] at h2
  | x :: xs, y :: ys, z :: zs, h1, h2 => by
    simp only [charsLt, Bool.or_eq_true, Bool.and_eq_true, decide_eq_true_eq,
      beq_iff_eq] at h1 h2 ⊢
    rcases h1 with h1 | ⟨e1, r1⟩ <;> rcases h2 with h2 | ⟨e2, r2⟩
    · exact Or.inl (Nat.lt_trans h1 h2)
    · exact Or.inl (e2 ▸ h1)
    · exact Or.inl (e1 ▸ h2)
    · exact Or.inr ⟨e1.trans e2, charsLt_trans xs ys zs r1 r2⟩

theorem char_eq_of_toNat_eq {a b : Char} (h : a.toNat = b.toNat) : a = b := by
  have := congrArg Char.ofNat h
  simpa using this

theorem charsLt_trichotomy : ∀ a b : List Char,
    charsLt a b = true ∨ a = b ∨ charsLt b a = true
  | [], [] => Or.inr (Or.inl rfl)
  | [], _ :: _ => Or.inl rfl
  | _ :: _, [] => Or.inr (Or.inr rfl)
  | x :: xs, y :: ys => by
    rcases Nat.lt_trichotomy x.toNat y.toNat with h | h | h
    · exact Or.inl (by simp [charsLt, h])
    · have hxy : x = y := char_eq_of_toNat_eq h
      subst hxy
      rcases charsLt_trichotomy xs ys with h' | h' | h'
      · exact Or.inl (by simp [charsLt, h'])
      · exact Or.inr (Or.inl (by rw [h']))
      · exact Or.inr (Or.inr (by simp [charsLt, h']))
    · exact Or.inr (Or.inr (by simp [charsLt, h]))

theorem charsLt_asymm {a b : List Char} (h : charsLt a b = true) :
    charsLt b a = false := by
  cases hba : charsLt b a
  · rfl
  · have := charsLt_trans a b a h hba
    rw [charsLt_irrefl] at this
    exact absurd this (by simp)

theorem str_eq_of_data_eq : ∀ {a b : String}, a.data = b.data → a = b
  | ⟨_⟩, ⟨_⟩, h => congrArg String.mk h

theorem strLt_trans {a b c : String} (h1 : strLt a b = true)
    (h2 : strLt b c = true) : strLt a c = true :=
  charsLt_trans a.data b.data c.data h1 h2

theorem strLt_asymm {a b : String} (h : strLt a b = true) : strLt b a = false :=
  charsLt_asymm h

theorem strLt_irrefl (a : String) : strLt a a = false :=
  charsLt_irrefl a.data

theorem strLt_trichotomy (a b : String) :
    strLt a b = true ∨ a = b ∨ strLt b a = true := by
  rcases charsLt_trichotomy a.data b.data with h | h | h
  · exact Or.inl h
  · exact Or.inr (Or.inl (str_eq_of_data_eq h))
  · exact Or.inr (Or.inr h)

theorem strLe_eq_not_strLt (a b : String) : strLe a b = !strLt b a := rfl

theorem strLe_refl (a : String) : strLe a a = true := by
  simp [strLe_eq_not_strLt, strLt_irrefl]

theorem strLe_of_strLt {a b : String} (h : strLt a b = true) : strLe a b = true := by
  simp [strLe_eq_not_strLt, strLt_asymm h]

theorem strLe_total (a b : String) : strLe a b = true ∨ strLe b a = true := by
  rcases strLt_trichotomy a b with h | h | h
  · exact Or.inl (strLe_of_strLt h)
  · exact Or.inl (h ▸ strLe_refl a)
  · exact Or.inr (strLe_of_strLt h)

theorem strLt_of_not_strLe {a b : String} (h : strLe a b = false) :
    strLt b a = true := by
  simpa [strLe_eq_not_strLt] using h

theorem strLe_trans {a b c : String} (h1 : strLe a b = true)
    (h2 : strLe b c = true) : strLe a c = true := by
  cases hca : strLt c a
  · simp [strLe_eq_not_strLt, hca]
  · exfalso
    rcases strLt_trichotomy a b with h | h | h
    · have := strLt_trans hca h
      simp [strLe_eq_not_strLt, this] at h2
    · subst h
      simp [strLe_eq_not_strLt, hca] at h2
    · simp [strLe_eq_not_strLt, h] at h1

theorem strLt_of_strLe_of_ne {a b : String} (h : strLe a b = true)
    (hne : a ≠ b) : strLt a b = true := by
  rcases strLt_trichotomy a b with h' | h' | h'
  · exact h'
  · exact absurd h' hne
  · simp [strLe_eq_not_strLt, h'] at h

/-! ## Sorting relations: totality and transitivity -/

instance : IsTotal StoredMessage (fun a b => msgOrder a b = true) := by
  constructor
  intro a b
  simp only [msgOrder, Bool.or_eq_true, Bool.and_eq_true, beq_iff_eq]
  rcases strLt_trichotomy a.ts b.ts with h | h | h
  · exact Or.inl (Or.inl h)
  · rcases strLe_total a.message_id b.message_id with h' | h'
    · exact Or.inl (Or.inr ⟨h, h'⟩)
    · exact Or.inr (Or.inr ⟨h.symm, h'⟩)
  · exact Or.inr (Or.inl h)

instance : IsTrans StoredMessage (fun a b => msgOrder a b = true) := by
  constructor
  intro a b c h1 h2
  simp only [msgOrder, Bool.or_eq_true, Bool.and_eq_true, beq_iff_eq] at h1 h2 ⊢
  rcases h1 with h1 | ⟨e1, l1⟩ <;> rcases h2 with h2 | ⟨e2, l2⟩
  · exact Or.inl (strLt_trans h1 h2)
  · exact Or.inl (e2 ▸ h1)
  · exact Or.inl (e1 ▸ h2)
  · exact Or.inr ⟨e1.trans e2, strLe_trans l1 l2⟩

instance : IsTotal (String × Nat) (fun a b => senderOrder a b = true) := by
  constructor
  intro a b
  simp only [senderOrder, Bool.or_eq_true, Bool.and_eq_true, beq_iff_eq,
    decide_eq_true_eq]
  rcases Nat.lt_trichotomy a.2 b.2 with h | h | h
  · exact Or.inr (Or.inl h)
  · rcases strLe_total a.1 b.1 with h' | h'
    · exact Or.inl (Or.inr ⟨h.symm, h'⟩)
    · exact Or.inr (Or.inr ⟨h, h'⟩)
  · exact Or.inl (Or.inl h)

instance : IsTrans (String × Nat) (fun a b => senderOrder a b = true) := by
  constructor
  intro a b c h1 h2
  simp only [senderOrder, Bool.or_eq_true, Bool.and_eq_true, beq_iff_eq,
    decide_eq_true_eq] at h1 h2 ⊢
  rcases h1 with h1 | ⟨e1, l1⟩ <;> rcases h2 with h2 | ⟨e2, l2⟩
  · exact Or.inl (Nat.lt_trans h2 h1)
  · exact Or.inl (e2 ▸ h1)
  · exact Or.inl (e1 ▸ h2)
  · exact Or.inr ⟨e2.trans e1, strLe_trans l1 l2⟩

/-! ## Validation of the SHA-256/HMAC embedding against published test
vectors (FIPS 180-4 and RFC 2104/4231 style). -/

example : sha256Words [] = [0xe3b0c442, 0x98fc1c14, 0x9afbf4c8, 0x996fb924,
  0x27ae41e4, 0x649b934c, 0xa495991b, 0x7852b855] := by decide

example : bytesToHex (sha256 (utf8Bytes "abc")) =
  "ba7816bf8f01cfea414140de5dae2223b00361a396177a9cb410ff61f20015ad" := by decide

example : hmacSha256Hex "key" (utf8Bytes "The quick brown fox jumps over the lazy dog") =
  "f7bc83f430538424b13298e6aa6fb143ef4d59a14946175997479dbc2d1a3cd8" := by decide

/-! ## Claim theorems -/

theorem msgStrict_of_msgOrder_of_ne {a b : StoredMessage}
    (h1 : msgOrder a b = true) (h2 : a.message_id ≠ b.message_id) :
    msgStrict a b = true := by
  simp only [msgOrder, Bool.or_eq_true, Bool.and_eq_true, beq_iff_eq] at h1
  simp only [msgStrict, Bool.or_eq_true, Bool.and_eq_true, beq_iff_eq]
  rcases h1 with h1 | ⟨e1, l1⟩
  · exact Or.inl h1
  · exact Or.inr ⟨e1, strLt_of_strLe_of_ne l1 h2⟩

theorem senderStrict_of_senderOrder_of_ne {a b : String × Nat}
    (h1 : senderOrder a b = true) (h2 : a.1 ≠ b.1) :
    senderStrict a b = true := by
  simp only [senderOrder, Bool.or_eq_true, Bool.and_eq_true, beq_iff_eq,
    decide_eq_true_eq] at h1
  simp only [senderStrict, Bool.or_eq_true, Bool.and_eq_true, beq_iff_eq,
    decide_eq_true_eq]
  rcases h1 with h1 | ⟨e1, l1⟩
  · exact Or.inl h1
  · exact Or.inr ⟨e1, strLt_of_strLe_of_ne l1 h2⟩

/-- Claim C1.  For every message already stored under a given `message_id`
(the situation after a first successful insert into a store that did not
yet hold that id), a second `insert_message` with the same `message_id` is
a no-op returning `False` (reported as `duplicate`): the store is
unchanged, so exactly one record exists for that id and its `ts`, `text`
and `created_at` (received-at) equal the first call's values, regardless
of the non-id fields of the second call. -/
theorem insert_message_idempotent (store : Store) (id f1 t1 ts1 : String)
    (x1 : Option String) (now1 : String) (f2 t2 ts2 : String)
    (x2 : Option String) (now2 : String)
    (h : ∀ r ∈ store, r.message_id ≠ id) :
    (insert_message store id f1 t1 ts1 x1 now1).2 = true
    ∧ insert_message (insert_message store id f1 t1 ts1 x1 now1).1 id f2 t2 ts2 x2 now2
        = ((insert_message store id f1 t1 ts1 x1 now1).1, false)
    ∧ (insert_message store id f1 t1 ts1 x1 now1).1.filter
        (fun r => r.message_id == id) = [⟨id, f1, t1, ts1, x1, now1⟩] := by
  have hany : store.any (fun r => r.message_id == id) = false := by
    simp only [List.any_eq_false, beq_iff_eq]
    exact h
  have hfil : store.filter (fun r => r.message_id == id) = [] := by
    rw [List.filter_eq_nil_iff]
    intro r hr
    simp [h r hr]
  constructor
  · simp [insert_message, hany]
  constructor
  · have h1 : (insert_message store id f1 t1 ts1 x1 now1).1
        = store ++ [⟨id, f1, t1, ts1, x1, now1⟩] := by
      simp [insert_message, hany]
    rw [h1]
    have hany2 : (store ++ [(⟨id, f1, t1, ts1, x1, now1⟩ : StoredMessage)]).any
        (fun r => r.message_id == id) = true := by
      simp [List.any_append]
    simp [insert_message, hany2]
  · have h1 : (insert_message store id f1 t1 ts1 x1 now1).1
        = store ++ [⟨id, f1, t1, ts1, x1, now1⟩] := by
      simp [insert_message, hany]
    rw [h1, List.filter_append, hfil]
    simp

/-- Witness for C1 at a concrete store and payloads. -/
theorem insert_message_idempotent_witness :
    insert_message (insert_message [] "m1" "+919876543210" "+14155550100"
        "2025-01-15T10:00:00+00:00" (some "Hello") "2025-01-15T10:00:01").1
        "m1" "+42" "+43" "2030-01-01T00:00:00" none "2025-01-15T10:00:02"
      = ((insert_message [] "m1" "+919876543210" "+14155550100"
          "2025-01-15T10:00:00+00:00" (some "Hello") "2025-01-15T10:00:01").1, false)
    ∧ (insert_message [] "m1" "+919876543210" "+14155550100"
        "2025-01-15T10:00:00+00:00" (some "Hello") "2025-01-15T10:00:01").1.filter
        (fun r => r.message_id == "m1")
      = [⟨"m1", "+919876543210", "+14155550100", "2025-01-15T10:00:00+00:00",
          some "Hello", "2025-01-15T10:00:01"⟩] := by
  have h := insert_message_idempotent [] "m1" "+919876543210" "+14155550100"
    "2025-01-15T10:00:00+00:00" (some "Hello") "2025-01-15T10:00:01"
    "+42" "+43" "2030-01-01T00:00:00" none "2025-01-15T10:00:02"
    (by intro r hr; cases hr)
  exact ⟨h.2.1, h.2.2⟩

/-- Claim C2.  For every store with distinct `message_id`s (the PRIMARY KEY
invariant) and every filter and page, the slice returned by `get_messages`
is strictly sorted by `ts` ascending with `message_id` ascending as the
tie-break: consecutive results satisfy `msgStrict`, so records sharing a
`ts` are ordered strictly by `message_id`.  Determinism across repeated
identical queries is immediate because `get_messages` is a pure function
of the store and the query arguments. -/
theorem get_messages_fst_eq (store : Store) (limit offset : Nat)
    (fromF sinceF searchF : Option String) :
    (get_messages store limit offset fromF sinceF searchF).1
      = ((List.insertionSort (fun a b => msgOrder a b = true)
          (store.filter (rowMatches fromF sinceF searchF))).drop offset).take limit := rfl

theorem get_messages_snd_eq (store : Store) (limit offset : Nat)
    (fromF sinceF searchF : Option String) :
    (get_messages store limit offset fromF sinceF searchF).2
      = (store.filter (rowMatches fromF sinceF searchF)).length := rfl

theorem get_messages_ordered (store : Store) (limit offset : Nat)
    (fromF sinceF searchF : Option String)
    (h : (store.map (fun r => r.message_id)).Nodup) :
    (get_messages store limit offset fromF sinceF searchF).1.Pairwise
      (fun a b => msgStrict a b = true) := by
  rw [get_messages_fst_eq]
  have hsorted := List.sorted_insertionSort (fun a b => msgOrder a b = true)
    (store.filter (rowMatches fromF sinceF searchF))
  have hsub : List.Sublist
      (((List.insertionSort (fun a b => msgOrder a b = true)
        (store.filter (rowMatches fromF sinceF searchF))).drop offset).take limit)
      (List.insertionSort (fun a b => msgOrder a b = true)
        (store.filter (rowMatches fromF sinceF searchF))) :=
    (List.take_sublist _ _).trans (List.drop_sublist _ _)
  have hpair := List.Pairwise.sublist hsub hsorted
  have hnd1 : ((store.filter (rowMatches fromF sinceF searchF)).map
      (fun r => r.message_id)).Nodup :=
    List.Nodup.sublist ((List.filter_sublist store).map _) h
  have hnd2 := ((List.perm_insertionSort (fun a b => msgOrder a b = true)
      (store.filter (rowMatches fromF sinceF searchF))).map
      (fun r => r.message_id)).nodup_iff.mpr hnd1
  have hnd3 := List.Nodup.sublist (hsub.map (fun r => r.message_id)) hnd2
  rw [List.Nodup, List.pairwise_map] at hnd3
  exact (hpair.and hnd3).imp (fun hx => msgStrict_of_msgOrder_of_ne hx.1 hx.2)

/-- Witness for C2: three stored records, two tied on `ts`. -/
theorem get_messages_ordered_witness :
    ((get_messages
      [⟨"m2", "+1", "+2", "2025-01-15T10:00:00", none, "c1"⟩,
       ⟨"m1", "+1", "+2", "2025-01-15T10:00:00", some "hi", "c2"⟩,
       ⟨"m0", "+1", "+2", "2025-01-14T09:00:00", none, "c3"⟩]
      50 0 none none none).1).Pairwise (fun a b => msgStrict a b = true) :=
  get_messages_ordered
    [⟨"m2", "+1", "+2", "2025-01-15T10:00:00", none, "c1"⟩,
     ⟨"m1", "+1", "+2", "2025-01-15T10:00:00", some "hi", "c2"⟩,
     ⟨"m0", "+1", "+2", "2025-01-14T09:00:00", none, "c3"⟩]
    50 0 none none none (by decide)

/-- Claim C3.  For every store, filter and page, the `total` returned by
`get_messages` is the number of records matching the WHERE clause, with
pagination ignored — it does not depend on `limit`/`offset` — and whenever
`offset ≥ total` the returned slice is empty while `total` is unchanged. -/
theorem get_messages_total (store : Store) (limit offset limit2 offset2 : Nat)
    (fromF sinceF searchF : Option String) :
    (get_messages store limit offset fromF sinceF searchF).2
        = (store.filter (rowMatches fromF sinceF searchF)).length
    ∧ (get_messages store limit offset fromF sinceF searchF).2
        = (get_messages store limit2 offset2 fromF sinceF searchF).2
    ∧ ((get_messages store limit offset fromF sinceF searchF).2 ≤ offset →
        (get_messages store limit offset fromF sinceF searchF).1 = []) := by
  refine ⟨rfl, rfl, fun hle => ?_⟩
  rw [get_messages_snd_eq] at hle
  rw [get_messages_fst_eq]
  have hlen : (List.insertionSort (fun a b => msgOrder a b = true)
      (store.filter (rowMatches fromF sinceF searchF))).length
      = (store.filter (rowMatches fromF sinceF searchF)).length :=
    (List.perm_insertionSort _ _).length_eq
  have hdrop : (List.insertionSort (fun a b => msgOrder a b = true)
      (store.filter (rowMatches fromF sinceF searchF))).drop offset = [] := by
    apply List.drop_eq_nil_of_le
    omega
  rw [hdrop, List.take_nil]

/-- Witness for C3: one matching record, `offset = 5 ≥ total = 1`. -/
theorem get_messages_total_witness :
    (get_messages [⟨"m1", "+1", "+2", "2025-01-15T10:00:00", none, "c"⟩]
        50 5 none none none).1 = [] :=
  (get_messages_total [⟨"m1", "+1", "+2", "2025-01-15T10:00:00", none, "c"⟩]
    50 5 50 0 none none none).2.2 (by decide)

/-- Shared characterization of `verify_signature`. -/
theorem verify_signature_eq_true_iff (secret : String) (body : List Nat)
    (sig : String) :
    verify_signature secret body sig = true ↔
      secret ≠ "" ∧ sig = hmacSha256Hex secret body := by
  unfold verify_signature
  by_cases h : secret = ""
  · simp [h]
  · simp [h]

/-- Claim C5.  `verify_signature` returns true if and only if the configured
secret is non-empty and the `X-Signature` header equals the hex-encoded
HMAC-SHA256 of the exact raw request body bytes keyed by the secret; in
particular verification always fails when the secret is empty or
unconfigured (fail closed). -/
theorem verify_signature_iff (secret : String) (body : List Nat) (sig : String) :
    verify_signature secret body sig = true ↔
      secret ≠ "" ∧ sig = hmacSha256Hex secret body :=
  verify_signature_eq_true_iff secret body sig

/-- Claim C7.  Any request whose `X-Signature` header is not the HMAC-SHA256
hex digest of the secret over the raw body is rejected (status ≠ 200) with
no storage mutation: the store after the request equals the store before
it (`insert_message` is never reached). -/
theorem webhook_invalid_signature_no_mutation (secret now : String)
    (store : Store) (req : WebhookRequest)
    (h : ∀ sig, req.xSignature = some sig →
      sig ≠ hmacSha256Hex secret req.rawBody) :
    (webhook_post secret store req now).2 = store
    ∧ (webhook_post secret store req now).1 ≠ 200 := by
  obtain ⟨body, jp, xs⟩ := req
  cases xs with
  | none => exact ⟨rfl, by simp [webhook_post]⟩
  | some sig =>
    cases jp with
    | none => exact ⟨rfl, by simp [webhook_post]⟩
    | some raw =>
      rcases hv : validatePayload raw with es | payload
      · constructor
        · simp [webhook_post, hv]
        · simp [webhook_post, hv]
      · rcases hs : verify_signature secret body sig
        · constructor
          · simp [webhook_post, hv, hs]
          · simp [webhook_post, hv, hs]
        · exfalso
          have := (verify_signature_eq_true_iff secret body sig).mp hs
          exact h sig rfl this.2

/-- Witness for C7: a concrete request whose signature header is not the
body's HMAC digest leaves the store unchanged. -/
theorem webhook_invalid_signature_no_mutation_witness :
    (webhook_post "testsecret" []
      ⟨utf8Bytes "\x7b\"message_id\":\"m1\",\"from\":\"+919876543210\",\"to\":\"+14155550100\",\"ts\":\"2025-01-15T10:00:00Z\",\"text\":\"Hello\"\x7d",
       some ⟨some "m1", some "+919876543210", some "+14155550100",
         some "2025-01-15T10:00:00Z", some "Hello", []⟩,
       some "deadbeef"⟩ "2025-01-15T10:00:05").2 = []
    ∧ (webhook_post "testsecret" []
      ⟨utf8Bytes "\x7b\"message_id\":\"m1\",\"from\":\"+919876543210\",\"to\":\"+14155550100\",\"ts\":\"2025-01-15T10:00:00Z\",\"text\":\"Hello\"\x7d",
       some ⟨some "m1", some "+919876543210", some "+14155550100",
         some "2025-01-15T10:00:00Z", some "Hello", []⟩,
       some "deadbeef"⟩ "2025-01-15T10:00:05").1 ≠ 200 :=
  webhook_invalid_signature_no_mutation "testsecret" "2025-01-15T10:00:05" []
    ⟨utf8Bytes "\x7b\"message_id\":\"m1\",\"from\":\"+919876543210\",\"to\":\"+14155550100\",\"ts\":\"2025-01-15T10:00:00Z\",\"text\":\"Hello\"\x7d",
     some ⟨some "m1", some "+919876543210", some "+14155550100",
       some "2025-01-15T10:00:00Z", some "Hello", []⟩,
     some "deadbeef"⟩
    (by intro sig hsig; cases hsig; decide)

/-! ## Stats lemmas -/

theorem listMinStr_spec (s : String) (rest : List String) :
    ∃ m, listMinStr (s :: rest) = some m ∧ m ∈ s :: rest ∧
      ∀ t ∈ s :: rest, strLe m t = true := by
  induction rest generalizing s with
  | nil =>
    refine ⟨s, rfl, List.mem_cons_self s [], ?_⟩
    intro t ht
    rw [List.mem_singleton] at ht
    subst ht
    exact strLe_refl t
  | cons a as ih =>
    obtain ⟨m, hm, hmem, hall⟩ := ih a
    have hred : listMinStr (s :: a :: as) = some (if strLe s m then s else m) := by
      show (match listMinStr (a :: as) with
        | none => some s
        | some m2 => some (if strLe s m2 then s else m2)) = _
      rw [hm]
    cases hsl : strLe s m with
    | true =>
      refine ⟨s, by rw [hred, if_pos hsl], List.mem_cons_self s _, ?_⟩
      intro t ht
      rcases List.mem_cons.mp ht with rfl | ht
      · exact strLe_refl t
      · exact strLe_trans hsl (hall t ht)
    | false =>
      refine ⟨m, by rw [hred, if_neg (by simp [hsl])], List.mem_cons_of_mem s hmem, ?_⟩
      intro t ht
      rcases List.mem_cons.mp ht with rfl | ht
      · exact strLe_of_strLt (strLt_of_not_strLe hsl)
      · exact hall t ht

theorem listMaxStr_spec (s : String) (rest : List String) :
    ∃ m, listMaxStr (s :: rest) = some m ∧ m ∈ s :: rest ∧
      ∀ t ∈ s :: rest, strLe t m = true := by
  induction rest generalizing s with
  | nil =>
    refine ⟨s, rfl, List.mem_cons_self s [], ?_⟩
    intro t ht
    rw [List.mem_singleton] at ht
    subst ht
    exact strLe_refl t
  | cons a as ih =>
    obtain ⟨m, hm, hmem, hall⟩ := ih a
    have hred : listMaxStr (s :: a :: as) = some (if strLe m s then s else m) := by
      show (match listMaxStr (a :: as) with
        | none => some s
        | some m2 => some (if strLe m2 s then s else m2)) = _
      rw [hm]
    cases hsl : strLe m s with
    | true =>
      refine ⟨s, by rw [hred, if_pos hsl], List.mem_cons_self s _, ?_⟩
      intro t ht
      rcases List.mem_cons.mp ht with rfl | ht
      · exact strLe_refl t
      · exact strLe_trans (hall t ht) hsl
    | false =>
      refine ⟨m, by rw [hred, if_neg (by simp [hsl])], List.mem_cons_of_mem s hmem, ?_⟩
      intro t ht
      rcases List.mem_cons.mp ht with rfl | ht
      · exact strLe_of_strLt (strLt_of_not_strLe hsl)
      · exact hall t ht

/-- Claim C6.  Given that every stored `ts` is a (nonempty) `isoformat`
string, `get_stats` returns at most 10 `messages_per_sender` entries even
when more than 10 senders exist, strictly ordered by count descending with
sender-value ascending as the tie-break; `first_message_ts` and
`last_message_ts` are the minimum and maximum stored `ts`, and both are
null exactly when the store is empty. -/
theorem get_stats_spec (store : Store) (h : ∀ r ∈ store, r.ts ≠ "") :
    (get_stats store).messages_per_sender.length ≤ 10
    ∧ (get_stats store).messages_per_sender.Pairwise
        (fun a b => senderStrict a b = true)
    ∧ (store = [] → (get_stats store).first_message_ts = none
        ∧ (get_stats store).last_message_ts = none)
    ∧ (store ≠ [] → ∃ tmin tmax,
        (get_stats store).first_message_ts = some tmin
        ∧ (get_stats store).last_message_ts = some tmax
        ∧ tmin ∈ store.map (fun r => r.ts)
        ∧ tmax ∈ store.map (fun r => r.ts)
        ∧ ∀ t ∈ store.map (fun r => r.ts),
            strLe tmin t = true ∧ strLe t tmax = true) := by
  refine ⟨?_, ?_, ?_, ?_⟩
  · exact List.length_take_le 10 _
  · have hsorted := List.sorted_insertionSort (fun a b => senderOrder a b = true)
      ((distinctSenders store).map
        (fun s => (s, store.countP (fun r => r.from_msisdn == s))))
    have hsub : List.Sublist
        ((List.insertionSort (fun a b => senderOrder a b = true)
          ((distinctSenders store).map
            (fun s => (s, store.countP (fun r => r.from_msisdn == s))))).take 10)
        (List.insertionSort (fun a b => senderOrder a b = true)
          ((distinctSenders store).map
            (fun s => (s, store.countP (fun r => r.from_msisdn == s))))) :=
      List.take_sublist _ _
    have hpair := List.Pairwise.sublist hsub hsorted
    have hnd1 : (((distinctSenders store).map
        (fun s => (s, store.countP (fun r => r.from_msisdn == s)))).map
        Prod.fst).Nodup := by
      rw [List.map_map]
      have hcomp : (Prod.fst ∘ fun s : String =>
          (s, store.countP (fun r => r.from_msisdn == s))) = id := rfl
      rw [hcomp, List.map_id]
      exact List.nodup_dedup (store.map (fun r => r.from_msisdn))
    have hnd2 := ((List.perm_insertionSort (fun a b => senderOrder a b = true)
        ((distinctSenders store).map
          (fun s => (s, store.countP (fun r => r.from_msisdn == s))))).map
        Prod.fst).nodup_iff.mpr hnd1
    have hnd3 := List.Nodup.sublist (hsub.map Prod.fst) hnd2
    rw [List.Nodup, List.pairwise_map] at hnd3
    exact (hpair.and hnd3).imp
      (fun hx => senderStrict_of_senderOrder_of_ne hx.1 hx.2)
  · intro hempty
    subst hempty
    exact ⟨rfl, rfl⟩
  · intro hne
    rcases hstore : store with _ | ⟨r0, rest⟩
    · exact absurd hstore hne
    subst hstore
    obtain ⟨tmin, hmin, hminMem, hminLe⟩ :=
      listMinStr_spec r0.ts (rest.map (fun r => r.ts))
    obtain ⟨tmax, hmax, hmaxMem, hmaxLe⟩ :=
      listMaxStr_spec r0.ts (rest.map (fun r => r.ts))
    have hmapeq : (r0 :: rest).map (fun r => r.ts)
        = r0.ts :: rest.map (fun r => r.ts) := rfl
    have hminNe : tmin ≠ "" := by
      rw [← hmapeq] at hminMem
      obtain ⟨rm, hrm, hrts⟩ := List.mem_map.mp hminMem
      exact hrts ▸ h rm hrm
    have hmaxNe : tmax ≠ "" := by
      rw [← hmapeq] at hmaxMem
      obtain ⟨rm, hrm, hrts⟩ := List.mem_map.mp hmaxMem
      exact hrts ▸ h rm hrm
    refine ⟨tmin, tmax, ?_, ?_, hmapeq ▸ hminMem, hmapeq ▸ hmaxMem, ?_⟩
    · show pyTruthyOptStr (listMinStr ((r0 :: rest).map (fun r => r.ts))) = some tmin
      rw [hmapeq, hmin]
      simp [pyTruthyOptStr, hminNe]
    · show pyTruthyOptStr (listMaxStr ((r0 :: rest).map (fun r => r.ts))) = some tmax
      rw [hmapeq, hmax]
      simp [pyTruthyOptStr, hmaxNe]
    · intro t ht
      rw [hmapeq] at ht
      exact ⟨hminLe t ht, hmaxLe t ht⟩

/-- Witness for C6: eleven distinct senders and a count tie. -/
theorem get_stats_spec_witness :
    ((get_stats
      [⟨"m01", "+11", "+2", "2025-01-01T00:00:00", none, "c"⟩,
       ⟨"m02", "+12", "+2", "2025-01-02T00:00:00", none, "c"⟩,
       ⟨"m03", "+13", "+2", "2025-01-03T00:00:00", none, "c"⟩,
       ⟨"m04", "+14", "+2", "2025-01-04T00:00:00", none, "c"⟩,
       ⟨"m05", "+15", "+2", "2025-01-05T00:00:00", none, "c"⟩,
       ⟨"m06", "+16", "+2", "2025-01-06T00:00:00", none, "c"⟩,
       ⟨"m07", "+17", "+2", "2025-01-07T00:00:00", none, "c"⟩,
       ⟨"m08", "+18", "+2", "2025-01-08T00:00:00", none, "c"⟩,
       ⟨"m09", "+19", "+2", "2025-01-09T00:00:00", none, "c"⟩,
       ⟨"m10", "+20", "+2", "2025-01-10T00:00:00", none, "c"⟩,
       ⟨"m11", "+21", "+2", "2025-01-11T00:00:00", none, "c"⟩,
       ⟨"m12", "+11", "+2", "2025-01-12T00:00:00", none, "c"⟩]).messages_per_sender.length ≤ 10)
    ∧ ((get_stats
      [⟨"m01", "+11", "+2", "2025-01-01T00:00:00", none, "c"⟩,
       ⟨"m02", "+12", "+2", "2025-01-02T00:00:00", none, "c"⟩,
       ⟨"m03", "+13", "+2", "2025-01-03T00:00:00", none, "c"⟩,
       ⟨"m04", "+14", "+2", "2025-01-04T00:00:00", none, "c"⟩,
       ⟨"m05", "+15", "+2", "2025-01-05T00:00:00", none, "c"⟩,
       ⟨"m06", "+16", "+2", "2025-01-06T00:00:00", none, "c"⟩,
       ⟨"m07", "+17", "+2", "2025-01-07T00:00:00", none, "c"⟩,
       ⟨"m08", "+18", "+2", "2025-01-08T00:00:00", none, "c"⟩,
       ⟨"m09", "+19", "+2", "2025-01-09T00:00:00", none, "c"⟩,
       ⟨"m10", "+20", "+2", "2025-01-10T00:00:00", none, "c"⟩,
       ⟨"m11", "+21", "+2", "2025-01-11T00:00:00", none, "c"⟩,
       ⟨"m12", "+11", "+2", "2025-01-12T00:00:00", none, "c"⟩]).messages_per_sender.Pairwise
        (fun a b => senderStrict a b = true)) := by
  have h := get_stats_spec
    [⟨"m01", "+11", "+2", "2025-01-01T00:00:00", none, "c"⟩,
     ⟨"m02", "+12", "+2", "2025-01-02T00:00:00", none, "c"⟩,
     ⟨"m03", "+13", "+2", "2025-01-03T00:00:00", none, "c"⟩,
     ⟨"m04", "+14", "+2", "2025-01-04T00:00:00", none, "c"⟩,
     ⟨"m05", "+15", "+2", "2025-01-05T00:00:00", none, "c"⟩,
     ⟨"m06", "+16", "+2", "2025-01-06T00:00:00", none, "c"⟩,
     ⟨"m07", "+17", "+2", "2025-01-07T00:00:00", none, "c"⟩,
     ⟨"m08", "+18", "+2", "2025-01-08T00:00:00", none, "c"⟩,
     ⟨"m09", "+19", "+2", "2025-01-09T00:00:00", none, "c"⟩,
     ⟨"m10", "+20", "+2", "2025-01-10T00:00:00", none, "c"⟩,
     ⟨"m11", "+21", "+2", "2025-01-11T00:00:00", none, "c"⟩,
     ⟨"m12", "+11", "+2", "2025-01-12T00:00:00", none, "c"⟩]
    (by decide)
  exact ⟨h.1, h.2.1⟩

/-! ## Payload validation lemmas -/

/-- Claim C9.  Because `get_messages` guards its filters with Python
truthiness (`if from_msisdn:`, `if search_query:`), passing the empty
string for the sender filter or for the text-search filter behaves exactly
as if the filter were absent: the returned page and the reported total are
those of the unfiltered query. -/
theorem get_messages_empty_filter_noop (store : Store) (limit offset : Nat)
    (fromF sinceF searchF : Option String) :
    get_messages store limit offset (some "") sinceF searchF
      = get_messages store limit offset none sinceF searchF
    ∧ get_messages store limit offset fromF sinceF (some "")
      = get_messages store limit offset fromF sinceF none := by
  have h1 : rowMatches (some "") sinceF searchF
      = rowMatches none sinceF searchF := by
    funext r
    simp [rowMatches, strTruthy]
  have h2 : rowMatches fromF sinceF (some "")
      = rowMatches fromF sinceF none := by
    funext r
    simp [rowMatches, strTruthy]
  constructor
  · unfold get_messages
    rw [h1]
  · unfold get_messages
    rw [h2]

theorem rowMatches_search_text_ne_none {fromF sinceF : Option String}
    {q : String} (hq : q ≠ "") {r : StoredMessage}
    (h : rowMatches fromF sinceF (some q) r = true) : r.text ≠ none := by
  intro htext
  have hT : strTruthy (some q) = true := by simp [strTruthy, hq]
  simp only [rowMatches, Bool.and_eq_true] at h
  have h3 := h.2
  simp [hT, htext] at h3

/-- Claim C10.  With a non-empty text-search filter, a stored message whose
`text` is NULL never matches (`NULL LIKE pattern` is NULL): it appears
neither in the returned records nor in the reported total — the total
equals the count over rows that both match the WHERE clause and have a
non-NULL `text`. -/
theorem get_messages_null_text_excluded (store : Store) (limit offset : Nat)
    (fromF sinceF : Option String) (q : String) (hq : q ≠ "") :
    (∀ r ∈ (get_messages store limit offset fromF sinceF (some q)).1,
      r.text ≠ none)
    ∧ (get_messages store limit offset fromF sinceF (some q)).2
      = (store.filter (fun r =>
          rowMatches fromF sinceF (some q) r && r.text != none)).length := by
  constructor
  · intro r hr
    rw [get_messages_fst_eq] at hr
    have hsub : List.Sublist
        (((List.insertionSort (fun a b => msgOrder a b = true)
          (store.filter (rowMatches fromF sinceF (some q)))).drop offset).take limit)
        (List.insertionSort (fun a b => msgOrder a b = true)
          (store.filter (rowMatches fromF sinceF (some q)))) :=
      (List.take_sublist _ _).trans (List.drop_sublist _ _)
    have hr2 := hsub.subset hr
    have hr3 := (List.perm_insertionSort (fun a b => msgOrder a b = true)
      (store.filter (rowMatches fromF sinceF (some q)))).mem_iff.mp hr2
    exact rowMatches_search_text_ne_none hq (List.of_mem_filter hr3)
  · rw [get_messages_snd_eq]
    congr 1
    apply List.filter_congr
    intro r _
    cases hrm : rowMatches fromF sinceF (some q) r
    · simp
    · have hne := rowMatches_search_text_ne_none hq hrm
      cases htext : r.text with
      | none => exact absurd htext hne
      | some t => simp [htext]

/-- Witness for C10: one row with `text` NULL is excluded from results and
total under a text search. -/
theorem get_messages_null_text_excluded_witness :
    (∀ r ∈ (get_messages
      [⟨"m1", "+1", "+2", "2025-01-15T10:00:00", some "say hi", "c"⟩,
       ⟨"m2", "+1", "+2", "2025-01-15T11:00:00", none, "c"⟩]
      50 0 none none (some "hi")).1, r.text ≠ none)
    ∧ (get_messages
      [⟨"m1", "+1", "+2", "2025-01-15T10:00:00", some "say hi", "c"⟩,
       ⟨"m2", "+1", "+2", "2025-01-15T11:00:00", none, "c"⟩]
      50 0 none none (some "hi")).2
      = ([⟨"m1", "+1", "+2", "2025-01-15T10:00:00", some "say hi", "c"⟩,
          ⟨"m2", "+1", "+2", "2025-01-15T11:00:00", none, "c"⟩].filter
          (fun r => rowMatches none none (some "hi") r && r.text != none)).length :=
  get_messages_null_text_excluded
    [⟨"m1", "+1", "+2", "2025-01-15T10:00:00", some "say hi", "c"⟩,
     ⟨"m2", "+1", "+2", "2025-01-15T11:00:00", none, "c"⟩]
    50 0 none none "hi" (by decide)

end Lyftr
